import Mathlib

/-!
Verification development for the filtered-search core of the milli-core
repository: a shallow embedding of the filter evaluator
(src/crates/milli-core/src/search/facet/filter.rs), of pass 2 of the word
extractor (extract_word_docids.rs), and of the per-document sliding-window
phase of the proximity extractor (extract_word_pair_proximity_docids.rs),
together with theorems settling the claims about them.

Machine conventions: document ids (u32) and field ids (u16) are embedded as
Nat (all operations on them here are order/equality comparisons, so no
overflow arithmetic occurs); RoaringBitmap is embedded as Finset Nat; finite
f64 values that reach the evaluator are embedded as Rat; Rust byte-wise
string comparison is embedded as lexicographic comparison of code points
(which agrees with byte-wise UTF-8 order).
-/

deriving instance DecidableEq for Except

namespace Milli

abbrev DocId := Nat
abbrev FieldId := Nat
abbrev Bitmap := Finset Nat

/-! ### String primitives

Rust `&str` comparison is byte-wise; on UTF-8 this equals code-point
lexicographic order, embedded here on `String.data`. -/

/-- Strict lexicographic order on char lists (code-point order). -/
def lexLt : List Char → List Char → Bool
  | [], [] => false
  | [], _ :: _ => true
  | _ :: _, [] => false
  | a :: as, b :: bs =>
    if a.toNat < b.toNat then true
    else if b.toNat < a.toNat then false
    else lexLt as bs

/-- Non-strict lexicographic order on char lists. -/
def lexLe : List Char → List Char → Bool
  | [], _ => true
  | _ :: _, [] => false
  | a :: as, b :: bs =>
    if a.toNat < b.toNat then true
    else if b.toNat < a.toNat then false
    else lexLe as bs

def strLt (a b : String) : Bool := lexLt a.data b.data

def strLe (a b : String) : Bool := lexLe a.data b.data

/-- Substring test on char lists (the two-way finder of the `Contains`
operator is embedded by its specification: some split exposes the needle). -/
def isSubList (needle : List Char) : List Char → Bool
  | [] => needle.isEmpty
  | c :: cs => List.isPrefixOf needle (c :: cs) || isSubList needle cs

/-- Modelled from the spec: `normalize_facet` (crate root, not under src/)
lower-cases and whitespace-trims a facet string before indexing and lookup. -/
def normalize_facet (s : String) : String :=
  ⟨((s.data.dropWhile Char.isWhitespace).reverse.dropWhile
      Char.isWhitespace).reverse.map Char.toLower⟩

/-! ### Tokens and the filter AST

Tokens come from the external filter parser. A token carries its raw string
value; `parse_finite_float` (external to src/) is embedded as the `num`
field: `some q` when the value parses as a finite 64-bit float with value
`q`, `none` otherwise (non-numeric or non-finite input), as the spec says:
"non-finite or non-numeric input yields None for the numeric side". -/
structure Token where
  value : String
  num : Option ℚ
deriving DecidableEq

inductive Condition where
  | Equal (v : Token)
  | NotEqual (v : Token)
  | GreaterThan (v : Token)
  | GreaterThanOrEqual (v : Token)
  | LowerThan (v : Token)
  | LowerThanOrEqual (v : Token)
  | Between (lo hi : Token)
  | Null
  | Empty
  | Exists
  | Contains (word : Token)
  | StartsWith (word : Token)
deriving DecidableEq

inductive FilterCondition where
  | Not (f : FilterCondition)
  | In (fid : Token) (els : List Token)
  | Condition (fid : Token) (op : Condition)
  | Or (l : List FilterCondition)
  | And (l : List FilterCondition)
  | GeoLowerThan (lat lng radius : Token)
  | GeoBoundingBox (trLat trLng blLat blLng : Token)

structure Filter where
  condition : FilterCondition

/-! ### Filterable-attribute rules

Modelled from the spec: the rule list (filterable_attributes_rules.rs, not
under src/) is an "ordered list of patterns, each carrying a feature set:
filterable, equality, comparison, empty, null, exists; the first matching
rule wins". The pattern-matching syntax is left external; it is embedded as
exact name equality. -/
structure FilterableAttributesFeatures where
  filterable : Bool
  equality : Bool
  comparison : Bool
  emptyOp : Bool
  nullOp : Bool
  existsOp : Bool
deriving DecidableEq

structure FilterableAttributesRule where
  pattern : String
  features : FilterableAttributesFeatures
deriving DecidableEq

/-- Modelled from the spec: `matching_features` returns the first matching
rule's index together with its feature set. -/
def matching_features (attr : String) (rules : List FilterableAttributesRule) :
    Option (Nat × FilterableAttributesFeatures) :=
  (rules.enum.find? (fun p => p.2.pattern = attr)).map (fun p => (p.1, p.2.features))

/-- Sorted insertion used to embed the `BTreeSet` of available patterns. -/
def sortedInsert (s : String) : List String → List String
  | [] => [s]
  | t :: ts => if strLe s t then s :: t :: ts else t :: sortedInsert s ts

def sortStrings (l : List String) : List String := l.foldr sortedInsert []

/-- Modelled from the spec: `filtered_matching_patterns` collects into a
`BTreeSet` (sorted, deduplicated) the patterns of the rules whose features
pass the given filter; the evaluator always passes `is_filterable`. -/
def filtered_matching_patterns (rules : List FilterableAttributesRule) : List String :=
  sortStrings (((rules.filter (fun r => r.features.filterable)).map
    (fun r => r.pattern)).dedup)

/-! ### The index

Modelled from the spec: the collaborator contracts the evaluator consumes
(spec section 6). The two facet stores hold only their level-0 entries,
keyed by (FieldId, left_bound); higher levels are an optimisation of the
range scan and carry no extra information. The geo R-tree's
nearest-neighbour enumeration (floating-point great-circle distances) is
abstracted as the list of document ids the query enumerates. -/
structure Index where
  fields_ids_map : String → Option FieldId
  field_name : FieldId → Option String
  rules : List FilterableAttributesRule
  documents_ids : Bitmap
  facet_str : List ((FieldId × String) × Bitmap)
  facet_num : List ((FieldId × ℚ) × Bitmap)
  null_faceted : FieldId → Bitmap
  empty_faceted : FieldId → Bitmap
  exists_faceted : FieldId → Bitmap
  geo_filtering_enabled : Bool
  geo_rtree : Option (List DocId)

/-- Reserved constant `_geo` (crate constants, value given by the spec). -/
def RESERVED_GEO_FIELD_NAME : String := "_geo"

/-- The maximum number of filters the filter AST can process. -/
def MAX_FILTER_DEPTH : Nat := 2000

inductive BadGeoError where
  | lat (v : ℚ)
  | lng (v : ℚ)
  | boundingBoxTopIsBelowBottom (top bottom : ℚ)
deriving DecidableEq

inductive EvalError where
  | attributeNotFilterable (attrName : String) (filterable_patterns : List String)
  | filterOperatorNotAllowed (field : String) (rule_index : Nat)
  | parseGeoError (e : BadGeoError)
  | tooDeep
  | invalidFilter
deriving DecidableEq

/-! ### Range bounds and the facet range scan -/

inductive RangeBound (α : Type) where
  | included (a : α)
  | excluded (a : α)
  | unbounded
deriving DecidableEq

/-- Whether `x` satisfies a lower bound, for a strict-order test `lt`. -/
def lowerOk {α : Type} (lt : α → α → Bool) : RangeBound α → α → Bool
  | .included l, x => !(lt x l)
  | .excluded l, x => lt l x
  | .unbounded, _ => true

/-- Whether `x` satisfies an upper bound, for a strict-order test `lt`. -/
def upperOk {α : Type} (lt : α → α → Bool) : RangeBound α → α → Bool
  | .included r, x => !(lt r x)
  | .excluded r, x => lt x r
  | .unbounded, _ => true

/-- Modelled from the spec: `find_docids_of_facet_within_bounds`
(facet_range_search.rs, not under src/) unions the bitmaps of every level-0
entry of the field whose left bound lies within the bounds. The multi-level
walk and the optional universe pruning are performance devices and do not
change the resulting set. -/
def facet_range_docids {α : Type} [DecidableEq α] (lt : α → α → Bool)
    (db : List ((FieldId × α) × Bitmap)) (field_id : FieldId)
    (left right : RangeBound α) : Bitmap :=
  (db.filter (fun e =>
    e.1.1 = field_id && lowerOk lt left e.1.2 && upperOk lt right e.1.2)).foldr
    (fun e acc => e.2 ∪ acc) ∅

/-- `Filter::explore_facet_levels`: returns no result when the bounds are
self-contradictory, otherwise runs the range scan. -/
def explore_facet_levels {α : Type} [DecidableEq α] (lt : α → α → Bool)
    (db : List ((FieldId × α) × Bitmap)) (field_id : FieldId)
    (left right : RangeBound α) : Bitmap :=
  match left, right with
  | .included l, .included r =>
    if lt r l then ∅ else facet_range_docids lt db field_id left right
  | .included l, .excluded r =>
    if !(lt l r) then ∅ else facet_range_docids lt db field_id left right
  | .excluded l, .excluded r =>
    if !(lt l r) then ∅ else facet_range_docids lt db field_id left right
  | .excluded l, .included r =>
    if !(lt l r) then ∅ else facet_range_docids lt db field_id left right
  | _, _ => facet_range_docids lt db field_id left right

def ratLt (a b : ℚ) : Bool := a < b

/-- Largest finite f64, `f64::MAX` = (2 − 2⁻⁵²)·2¹⁰²³. -/
def F64_MAX : ℚ := (2 ^ 1024 : ℚ) - 2 ^ 971

def F64_MIN : ℚ := -F64_MAX

/-! ### The operator evaluator -/

/-- The string/number double lookup of the `Equal` arm of
`Filter::evaluate_operator` (filter.rs lines 353-374). -/
def equal_docids (i : Index) (field_id : FieldId) (v : Token) : Bitmap :=
  let string_docids :=
    (i.facet_str.lookup (field_id, normalize_facet v.value)).getD ∅
  let number_docids :=
    match v.num with
    | some n => (i.facet_num.lookup (field_id, n)).getD ∅
    | none => ∅
  string_docids ∪ number_docids

/-- `generate_filter_error` (filter.rs lines 785-805). -/
def generate_filter_error (i : Index) (field_id : FieldId) (rule_index : Nat) :
    EvalError :=
  .filterOperatorNotAllowed ((i.field_name field_id).getD "") rule_index

/-- The common tail of `Filter::evaluate_operator` for range operators: the
numeric scan (skipped when the value did not parse as a finite float) unioned
with the string scan. -/
def range_docids (i : Index) (field_id : FieldId)
    (number_bounds : Option (RangeBound ℚ × RangeBound ℚ))
    (str_bounds : RangeBound String × RangeBound String) : Bitmap :=
  let fromNumbers :=
    match number_bounds with
    | some (l, r) => explore_facet_levels ratLt i.facet_num field_id l r
    | none => ∅
  fromNumbers ∪
    explore_facet_levels strLt i.facet_str field_id str_bounds.1 str_bounds.2

/-- `Filter::evaluate_operator` (filter.rs lines 259-463). The universe
argument is forwarded to the range scan in the source purely as a pruning
device, so it does not appear in the embedded scan. -/
def evaluate_operator (i : Index) (field_id : FieldId)
    (op : Condition) (features : FilterableAttributesFeatures)
    (rule_index : Nat) : Except EvalError Bitmap :=
  match op with
  | .GreaterThan v =>
    if !features.comparison then .error (generate_filter_error i field_id rule_index)
    else .ok (range_docids i field_id
      (v.num.map (fun n => (.excluded n, .included F64_MAX)))
      (.excluded v.value, .unbounded))
  | .GreaterThanOrEqual v =>
    if !features.comparison then .error (generate_filter_error i field_id rule_index)
    else .ok (range_docids i field_id
      (v.num.map (fun n => (.included n, .included F64_MAX)))
      (.included v.value, .unbounded))
  | .LowerThan v =>
    if !features.comparison then .error (generate_filter_error i field_id rule_index)
    else .ok (range_docids i field_id
      (v.num.map (fun n => (.included F64_MIN, .excluded n)))
      (.unbounded, .excluded v.value))
  | .LowerThanOrEqual v =>
    if !features.comparison then .error (generate_filter_error i field_id rule_index)
    else .ok (range_docids i field_id
      (v.num.map (fun n => (.included F64_MIN, .included n)))
      (.unbounded, .included v.value))
  | .Between lo hi =>
    if !features.comparison then .error (generate_filter_error i field_id rule_index)
    else .ok (range_docids i field_id
      (match lo.num, hi.num with
       | some l, some r => some (.included l, .included r)
       | _, _ => none)
      (.included lo.value, .included hi.value))
  | .Null =>
    if !features.nullOp then .error (generate_filter_error i field_id rule_index)
    else .ok (i.null_faceted field_id)
  | .Empty =>
    if !features.emptyOp then .error (generate_filter_error i field_id rule_index)
    else .ok (i.empty_faceted field_id)
  | .Exists =>
    if !features.existsOp then .error (generate_filter_error i field_id rule_index)
    else .ok (i.exists_faceted field_id)
  | .Equal v =>
    if !features.equality then .error (generate_filter_error i field_id rule_index)
    else .ok (equal_docids i field_id v)
  | .NotEqual v =>
    if !features.equality then .error (generate_filter_error i field_id rule_index)
    else .ok (i.documents_ids \ equal_docids i field_id v)
  | .Contains word =>
    .ok (((i.facet_str.filter (fun e =>
        e.1.1 = field_id &&
          isSubList (normalize_facet word.value).data e.1.2.data)).foldr
      (fun e acc => e.2 ∪ acc) ∅))
  | .StartsWith word =>
    .ok (((i.facet_str.filter (fun e =>
        e.1.1 = field_id &&
          List.isPrefixOf (normalize_facet word.value).data e.1.2.data)).foldr
      (fun e acc => e.2 ∪ acc) ∅))

/-! ### The inner recursion -/

/-- Union of a list of fallible bitmaps, failing on the first error:
`Iterator<Item = Result<RoaringBitmap>>::union()`. -/
def unionResults : List (Except EvalError Bitmap) → Except EvalError Bitmap
  | [] => .ok ∅
  | x :: xs => do
    let b ← x
    let rest ← unionResults xs
    return b ∪ rest

/-- The body of the `FilterCondition::Condition` arm of
`Filter::inner_evaluate` (filter.rs lines 544-555), also entered for the
synthetic `_geo.lat` / `_geo.lng` conditions that the `GeoBoundingBox` arm
builds and evaluates through `inner_evaluate` (which first repeats the
empty-universe short-circuit). -/
def eval_condition_node (i : Index) (fid : Token) (op : Condition)
    (univ : Option Bitmap) : Except EvalError Bitmap :=
  if univ = some ∅ then .ok ∅
  else
    match i.fields_ids_map fid.value with
    | none => .ok ∅
    | some field_id =>
      match matching_features fid.value i.rules with
      | none => .ok ∅
      | some (rule_index, features) =>
        evaluate_operator i field_id op features rule_index

/-- The `FilterCondition::In` arm (filter.rs lines 525-543). -/
def eval_in_node (i : Index) (fid : Token) (els : List Token)
    (univ : Option Bitmap) : Except EvalError Bitmap :=
  if univ = some ∅ then .ok ∅
  else
    match i.fields_ids_map fid.value with
    | none => .ok ∅
    | some field_id =>
      match matching_features fid.value i.rules with
      | none => .ok ∅
      | some (rule_index, features) =>
        unionResults (els.map (fun el =>
          evaluate_operator i field_id (.Equal el) features rule_index))

/-- The `FilterCondition::GeoLowerThan` arm (filter.rs lines 602-639). -/
def eval_geo_radius (i : Index) (latTok lngTok radius : Token) :
    Except EvalError Bitmap :=
  if i.geo_filtering_enabled then
    match latTok.num with
    | none => .error .invalidFilter
    | some lat =>
      match lngTok.num with
      | none => .error .invalidFilter
      | some lng =>
        if !(-90 ≤ lat ∧ lat ≤ 90) then .error (.parseGeoError (.lat lat))
        else if !(-180 ≤ lng ∧ lng ≤ 180) then .error (.parseGeoError (.lng lng))
        else
          match radius.num with
          | none => .error .invalidFilter
          | some _r =>
            match i.geo_rtree with
            | none => .ok ∅
            | some enumerated => .ok enumerated.toFinset
  else
    .error (.attributeNotFilterable RESERVED_GEO_FIELD_NAME
      (filtered_matching_patterns i.rules))

/-- The `FilterCondition::GeoBoundingBox` arm (filter.rs lines 640-780):
validates both corners, then reduces to `Between` conditions on the
synthetic `_geo.lat` / `_geo.lng` fields, splitting the longitude range in
two when the box wraps the antimeridian. -/
def eval_geo_bounding_box (i : Index) (trLat trLng blLat blLng : Token)
    (univ : Option Bitmap) : Except EvalError Bitmap :=
  if i.geo_filtering_enabled then
    match trLat.num, trLng.num, blLat.num, blLng.num with
    | some tr0, some tr1, some bl0, some bl1 =>
      if !(-90 ≤ tr0 ∧ tr0 ≤ 90) then .error (.parseGeoError (.lat tr0))
      else if !(-180 ≤ tr1 ∧ tr1 ≤ 180) then .error (.parseGeoError (.lng tr1))
      else if !(-90 ≤ bl0 ∧ bl0 ≤ 90) then .error (.parseGeoError (.lat bl0))
      else if !(-180 ≤ bl1 ∧ bl1 ≤ 180) then .error (.parseGeoError (.lng bl1))
      else if tr0 < bl0 then
        .error (.parseGeoError (.boundingBoxTopIsBelowBottom tr0 bl0))
      else do
        let geoLat : Token := ⟨"_geo.lat", none⟩
        let geoLng : Token := ⟨"_geo.lng", none⟩
        let selected_lat ← eval_condition_node i geoLat
          (.Between blLat trLat) univ
        let selected_lng ←
          if tr1 < bl1 then do
            let minLng : Token := ⟨"-180.0", some (-180)⟩
            let maxLng : Token := ⟨"180.0", some 180⟩
            let left ← eval_condition_node i geoLng
              (.Between blLng maxLng) univ
            let right ← eval_condition_node i geoLng
              (.Between minLng trLng) univ
            return left ∪ right
          else
            eval_condition_node i geoLng (.Between blLng trLng) univ
        return selected_lat ∩ selected_lng
    | _, _, _, _ => .error .invalidFilter
  else
    .error (.attributeNotFilterable RESERVED_GEO_FIELD_NAME
      (filtered_matching_patterns i.rules))

mutual

/-- `Filter::inner_evaluate` (filter.rs lines 495-782). -/
def inner_evaluate (i : Index) (c : FilterCondition) (univ : Option Bitmap) :
    Except EvalError Bitmap :=
  if univ = some ∅ then .ok ∅
  else
    match c with
    | .Not f => do
      let selected ← inner_evaluate i f univ
      match univ with
      | some u => return u \ selected
      | none => return i.documents_ids \ selected
    | .In fid els => eval_in_node i fid els univ
    | .Condition fid op => eval_condition_node i fid op univ
    | .Or l => eval_or_list i l univ
    | .And [] => .ok ∅
    | .And (f :: fs) => do
      let first ← inner_evaluate i f univ
      eval_and_loop i fs first
    | .GeoLowerThan lat lng radius => eval_geo_radius i lat lng radius
    | .GeoBoundingBox trLat trLng blLat blLng =>
      eval_geo_bounding_box i trLat trLng blLat blLng univ

/-- The `FilterCondition::Or` arm: every child evaluated with the outer
universe, results unioned (first error wins). -/
def eval_or_list (i : Index) (l : List FilterCondition)
    (univ : Option Bitmap) : Except EvalError Bitmap :=
  match l with
  | [] => .ok ∅
  | f :: fs => do
    let b ← inner_evaluate i f univ
    let rest ← eval_or_list i fs univ
    return b ∪ rest

/-- The fold of the `FilterCondition::And` arm: each later child is
evaluated with the accumulated bitmap as universe and intersected into it,
with an early exit on the empty bitmap. -/
def eval_and_loop (i : Index) (l : List FilterCondition) (bitmap : Bitmap) :
    Except EvalError Bitmap :=
  match l with
  | [] => .ok bitmap
  | f :: fs =>
    if bitmap = ∅ then .ok bitmap
    else do
      let r ← inner_evaluate i f (some bitmap)
      eval_and_loop i fs (bitmap ∩ r)

end

/-! ### Preflight and `evaluate` -/

mutual

/-- Modelled from the spec: `FilterCondition::fids` (the external filter
parser) yields the field token of every `In` / `Condition` node; the geo
predicates carry no field token and their filterability is checked inside
the recursion. -/
def fids : FilterCondition → List String
  | .Not f => fids f
  | .In fid _ => [fid.value]
  | .Condition fid _ => [fid.value]
  | .Or l => fids_list l
  | .And l => fids_list l
  | .GeoLowerThan _ _ _ => []
  | .GeoBoundingBox _ _ _ _ => []

def fids_list : List FilterCondition → List String
  | [] => []
  | f :: fs => fids f ++ fids_list fs

end

/-- Whether the first rule matching `attr` makes it filterable. -/
def is_filterable_attr (rules : List FilterableAttributesRule) (attr : String) :
    Bool :=
  match matching_features attr rules with
  | some (_, features) => features.filterable
  | none => false

/-- `Filter::evaluate` (filter.rs lines 234-257): before any recursion, walk
the referenced fields and fail with `AttributeNotFilterable` on the first
one whose matching rule is not filterable (or that matches no rule). -/
def evaluate (i : Index) (f : Filter) : Except EvalError Bitmap :=
  match (fids f.condition).find? (fun a => !is_filterable_attr i.rules a) with
  | some attr =>
    .error (.attributeNotFilterable attr (filtered_matching_patterns i.rules))
  | none => inner_evaluate i f.condition none

/-! ### Construction-time depth guard -/

mutual

/-- Modelled from the spec: the depth measure behind
`FilterCondition::token_at_depth` (the external filter parser). Depth counts
child edges from the root; `And`/`Or` of N children count as one level. -/
def max_depth : FilterCondition → Nat
  | .Not f => max_depth f + 1
  | .In _ _ => 0
  | .Condition _ _ => 0
  | .Or l => max_depth_list l + 1
  | .And l => max_depth_list l + 1
  | .GeoLowerThan _ _ _ => 0
  | .GeoBoundingBox _ _ _ _ => 0

def max_depth_list : List FilterCondition → Nat
  | [] => 0
  | f :: fs => max (max_depth f) (max_depth_list fs)

end

/-- The depth check of `Filter::from_str` / `Filter::from_array`
(filter.rs lines 206-210 and 221-225), applied to the condition produced by
the external parser: a tree with a node deeper than `MAX_FILTER_DEPTH` is
rejected with `TooDeep` at construction time. -/
def from_parsed (c : FilterCondition) : Except EvalError Filter :=
  if MAX_FILTER_DEPTH < max_depth c then .error .tooDeep
  else .ok ⟨c⟩

/-! ### Word extractor, pass 2 (extract_word_docids.rs lines 115-154)

Pass 2 iterates the merged, sorted `(word, fid)` records. Keys are embedded
as `String × FieldId` (the `\0` separator of the byte encoding is a detail
of the codec), values as the Del/Add envelope with opaque payload bytes. -/

abbrev Bytes := List Nat

inductive DelAdd where
  | deletion
  | addition
deriving DecidableEq

/-- The Del/Add envelope (update/del_add.rs, not under src/): an obkv with
an optional `Deletion` slot and an optional `Addition` slot. -/
structure DelAddValue where
  deletion : Option Bytes
  addition : Option Bytes
deriving DecidableEq

/-- Modelled from the spec: `is_noop_del_add_obkv` holds when the deletion
slot equals the addition slot, i.e. the record changes nothing
("a key with both sides identical (delete = add) is a no-op"). -/
def is_noop_del_add_obkv (v : DelAddValue) : Bool := v.deletion = v.addition

/-- One side of `InnerIndexSettingsDiff` (update/settings.rs, not under
src/): the exact-attribute set and the disabled-typos term test, modelled
from the spec as the data pass 2 consults. -/
structure InnerIndexSettings where
  exact_attributes : List FieldId
  disabled_typos_is_exact : String → Bool

structure InnerIndexSettingsDiff where
  old : InnerIndexSettings
  new : InnerIndexSettings

/-- `fid ∈ exact_attributes || disabled_typos_terms.is_exact(word)`. -/
def routes_to_exact (s : InnerIndexSettings) (w : String) (fid : FieldId) :
    Bool :=
  s.exact_attributes.contains fid || s.disabled_typos_is_exact w

structure Pass2Output where
  word_fid_docids : List ((String × FieldId) × DelAddValue)
  word_docids : List (String × DelAdd × Bytes)
  exact_word_docids : List (String × DelAdd × Bytes)
deriving DecidableEq

/-- Pass 2 of `extract_word_docids` (lines 115-154): every `(word, fid)`
record is written verbatim to the word-fid-docids writer unless it is a
no-op; independently, its deletion side is routed to the exact or normal
word sorter according to the old settings, and its addition side according
to the new settings. -/
def extract_word_docids_pass2 (sd : InnerIndexSettingsDiff) :
    List ((String × FieldId) × DelAddValue) → Pass2Output
  | [] => ⟨[], [], []⟩
  | ((w, fid), v) :: rest =>
    let tail := extract_word_docids_pass2 sd rest
    let fidRecords :=
      if !is_noop_del_add_obkv v then [((w, fid), v)] else []
    let delNormal :=
      match v.deletion with
      | some b => if routes_to_exact sd.old w fid then [] else [(w, DelAdd.deletion, b)]
      | none => []
    let delExact :=
      match v.deletion with
      | some b => if routes_to_exact sd.old w fid then [(w, DelAdd.deletion, b)] else []
      | none => []
    let addNormal :=
      match v.addition with
      | some b => if routes_to_exact sd.new w fid then [] else [(w, DelAdd.addition, b)]
      | none => []
    let addExact :=
      match v.addition with
      | some b => if routes_to_exact sd.new w fid then [(w, DelAdd.addition, b)] else []
      | none => []
    ⟨fidRecords ++ tail.word_fid_docids,
     delNormal ++ addNormal ++ tail.word_docids,
     delExact ++ addExact ++ tail.exact_word_docids⟩

/-! ### Proximity extractor (extract_word_pair_proximity_docids.rs)

Per document and per side, the extractor feeds each record's
(position, word) pairs through a sliding window, accumulating a map
(w1, w2) → minimal proximity; the window is drained to empty at the end of
each record, and the map is flushed when the document changes. -/

def MAX_DISTANCE : Nat := 8

/-- Modelled from the spec: `index_proximity` (crate::proximity, not under
src/) is the positional distance clamped to `[0, MAX_DISTANCE]`. -/
def index_proximity (a b : Nat) : Nat := min (Nat.dist a b) MAX_DISTANCE

/-- The per-side pair map `(w1, w2) → min_prox` (a BTreeMap in the source),
embedded as a partial function. -/
def PMap := String × String → Option Nat

def emptyPMap : PMap := fun _ => none

/-- `pairs.entry((w0, wi)).and_modify(min).or_insert(prox)`. -/
def insertMinProx (m : PMap) (k : String × String) (p : Nat) : PMap :=
  fun q =>
    if q = k then
      match m k with
      | some old => some (min old p)
      | none => some p
    else m q

/-- `word_positions_into_word_pair_proximity` (lines 244-261): pop the head
of the window and pair it against every remaining element, keeping
proximities strictly between 0 and MAX_DISTANCE. -/
def word_positions_into_word_pair_proximity :
    List (String × Nat) → PMap → List (String × Nat) × PMap
  | [], m => ([], m)
  | (hw, hp) :: rest, m =>
    (rest,
      rest.foldl (fun acc e =>
        let prox := index_proximity hp e.2
        if 0 < prox ∧ prox < MAX_DISTANCE then insertMinProx acc (hw, e.1) prox
        else acc) m)

/-- The while-loop of lines 99-106 / 132-139: drain the window while its
head is no longer close to the incoming position. -/
def drain_far : List (String × Nat) → PMap → Nat → List (String × Nat) × PMap
  | [], m, _ => ([], m)
  | (w0, p0) :: rest, m, pos =>
    if MAX_DISTANCE ≤ index_proximity p0 pos then
      drain_far rest
        ((word_positions_into_word_pair_proximity ((w0, p0) :: rest) m).2) pos
    else ((w0, p0) :: rest, m)

/-- The while-loop of lines 113-118 / 146-151: drain the window to empty at
the end of a record. -/
def drain_all : List (String × Nat) → PMap → PMap
  | [], m => m
  | h :: rest, m =>
    drain_all rest ((word_positions_into_word_pair_proximity (h :: rest) m).2)

/-- Processing one incoming `(position, word)` pair (lines 97-110). -/
def push_word (st : List (String × Nat) × PMap) (pos : Nat) (w : String) :
    List (String × Nat) × PMap :=
  let st' := drain_far st.1 st.2 pos
  (st'.1 ++ [(w, pos)], st'.2)

def feed_words (st : List (String × Nat) × PMap) :
    List (Nat × String) → List (String × Nat) × PMap
  | [] => st
  | (pos, w) :: rest => feed_words (push_word st pos w) rest

/-- One side of one record: feed every (position, word) pair through the
window, then drain the window to empty. -/
def process_record (m : PMap) (record : List (Nat × String)) : PMap :=
  let st := feed_words ([], m) record
  drain_all st.1 st.2

/-- One side of one document: its records processed in order into one map
(the map is only flushed when the document id changes). -/
def document_side_pairs (records : List (List (Nat × String))) : PMap :=
  records.foldl process_record emptyPMap

/-! ### The specification-side pair map -/

def word_pos (e : Nat × String) : String × Nat := (e.2, e.1)

/-- Minimum of a list of proximities, `none` when empty. -/
def minOf : List Nat → Option Nat
  | [] => none
  | x :: xs =>
    match minOf xs with
    | none => some x
    | some y => some (min x y)

/-- Min-merge of two optional proximities. -/
def omin : Option Nat → Option Nat → Option Nat
  | none, y => y
  | some x, none => some x
  | some x, some y => some (min x y)

/-- The qualifying proximities contributed by one occurrence `(hw, hp)` of
`a` against the later occurrences `rest`: every pair with an occurrence of
`b`, keeping proximities strictly between 0 and MAX_DISTANCE. -/
def head_proxes (hw : String) (hp : Nat) (rest : List (String × Nat))
    (a b : String) : List Nat :=
  if hw = a then
    rest.filterMap (fun e =>
      let prox := index_proximity hp e.2
      if e.1 = b ∧ 0 < prox ∧ prox < MAX_DISTANCE then some prox else none)
  else []

/-- All qualifying proximities of ordered occurrence pairs `(a, b)` in a
word/position sequence. -/
def pair_proxes (a b : String) : List (String × Nat) → List Nat
  | [] => []
  | (w, p) :: rest => head_proxes w p rest a b ++ pair_proxes a b rest

/-- The pair map the claim describes: for each ordered word pair, the
minimum over all qualifying position pairs of their proximity. -/
def ideal_min (ws : List (String × Nat)) (a b : String) : Option Nat :=
  minOf (pair_proxes a b ws)

/-- The claim's document-level pair map: occurrences drawn from the whole
document (all records concatenated). -/
def document_ideal (records : List (List (Nat × String))) (a b : String) :
    Option Nat :=
  ideal_min ((records.flatten).map word_pos) a b

/-! ### Lemmas: min-merge algebra -/

theorem omin_none_right : ∀ x : Option Nat, omin x none = x
  | none => rfl
  | some _ => rfl

theorem omin_none_left (x : Option Nat) : omin none x = x := rfl

theorem omin_comm : ∀ x y : Option Nat, omin x y = omin y x
  | none, none => rfl
  | none, some _ => rfl
  | some _, none => rfl
  | some a, some b => by simp [omin, Nat.min_comm]

theorem omin_assoc : ∀ x y z : Option Nat, omin (omin x y) z = omin x (omin y z)
  | none, _, _ => rfl
  | some _, none, _ => rfl
  | some _, some _, none => rfl
  | some _, some _, some _ => by simp [omin, Nat.min_assoc]

theorem omin_left_comm (x y z : Option Nat) :
    omin x (omin y z) = omin y (omin x z) := by
  rw [← omin_assoc, omin_comm x y, omin_assoc]

theorem minOf_cons (x : Nat) (xs : List Nat) :
    minOf (x :: xs) = omin (some x) (minOf xs) := by
  cases h : minOf xs <;> simp [minOf, omin, h]

theorem minOf_append : ∀ l₁ l₂ : List Nat,
    minOf (l₁ ++ l₂) = omin (minOf l₁) (minOf l₂)
  | [], l₂ => by simp [minOf, omin_none_left]
  | x :: xs, l₂ => by
    rw [List.cons_append, minOf_cons, minOf_append xs l₂, minOf_cons, omin_assoc]

theorem insertMinProx_apply (m : PMap) (k : String × String) (p : Nat)
    (q : String × String) :
    insertMinProx m k p q = if q = k then omin (m k) (some p) else m q := by
  by_cases h : q = k <;> cases hm : m k <;> simp [insertMinProx, h, hm, omin]

/-! ### Lemmas: the pair fold and window drains -/

theorem head_proxes_nil (hw : String) (hp : Nat) (a b : String) :
    head_proxes hw hp [] a b = [] := by
  simp [head_proxes]

theorem head_proxes_append (hw : String) (hp : Nat)
    (l₁ l₂ : List (String × Nat)) (a b : String) :
    head_proxes hw hp (l₁ ++ l₂) a b =
      head_proxes hw hp l₁ a b ++ head_proxes hw hp l₂ a b := by
  by_cases h : hw = a <;> simp [head_proxes, h]

/-- The fold of `word_positions_into_word_pair_proximity`, pointwise. -/
theorem pair_fold_spec (hw : String) (hp : Nat) :
    ∀ (rest : List (String × Nat)) (m : PMap) (a b : String),
    (rest.foldl (fun acc e =>
        let prox := index_proximity hp e.2
        if 0 < prox ∧ prox < MAX_DISTANCE then insertMinProx acc (hw, e.1) prox
        else acc) m) (a, b)
      = omin (m (a, b)) (minOf (head_proxes hw hp rest a b))
  | [], m, a, b => by
    simp [head_proxes, minOf, omin_none_right]
  | e :: rest, m, a, b => by
    rw [List.foldl_cons, pair_fold_spec hw hp rest]
    by_cases hcond : 0 < index_proximity hp e.2 ∧ index_proximity hp e.2 < MAX_DISTANCE
    · rw [if_pos hcond, insertMinProx_apply]
      by_cases hk : (a, b) = (hw, e.1)
      · have ha : hw = a := by cases hk; rfl
        have hb : e.1 = b := by cases hk; rfl
        simp only [hk, if_true]
        have : head_proxes hw hp (e :: rest) a b =
            index_proximity hp e.2 :: head_proxes hw hp rest a b := by
          simp [head_proxes, ha, hb, hcond]
        rw [this, minOf_cons, ← omin_assoc]
      · simp only [hk, if_false]
        have : head_proxes hw hp (e :: rest) a b = head_proxes hw hp rest a b := by
          by_cases ha : hw = a
          · have hb : ¬ e.1 = b := by
              intro hb; exact hk (by cases ha; cases hb; rfl)
            simp [head_proxes, ha, hb]
          · simp [head_proxes, ha]
        rw [this]
    · rw [if_neg hcond]
      have : head_proxes hw hp (e :: rest) a b = head_proxes hw hp rest a b := by
        by_cases ha : hw = a
        · simp [head_proxes, ha, hcond]
        · simp [head_proxes, ha]
      rw [this]

theorem wppp_window (h : String × Nat) (rest : List (String × Nat)) (m : PMap) :
    (word_positions_into_word_pair_proximity (h :: rest) m).1 = rest := rfl

theorem wppp_map (h : String × Nat) (rest : List (String × Nat)) (m : PMap)
    (a b : String) :
    (word_positions_into_word_pair_proximity (h :: rest) m).2 (a, b)
      = omin (m (a, b)) (minOf (head_proxes h.1 h.2 rest a b)) := by
  cases h with
  | mk hw hp => exact pair_fold_spec hw hp rest m a b

theorem drain_all_spec :
    ∀ (win : List (String × Nat)) (m : PMap) (a b : String),
    drain_all win m (a, b) = omin (m (a, b)) (ideal_min win a b)
  | [], m, a, b => by simp [drain_all, ideal_min, pair_proxes, minOf, omin_none_right]
  | (w, p) :: rest, m, a, b => by
    rw [drain_all, drain_all_spec rest, wppp_map, omin_assoc]
    have : ideal_min ((w, p) :: rest) a b
        = omin (minOf (head_proxes w p rest a b)) (ideal_min rest a b) := by
      simp [ideal_min, pair_proxes, minOf_append]
    rw [this]

/-- Number of window elements the far-drain loop pops for an incoming
position. -/
def dropped_count : List (String × Nat) → Nat → Nat
  | [], _ => 0
  | (_, p0) :: rest, pos =>
    if MAX_DISTANCE ≤ index_proximity p0 pos then dropped_count rest pos + 1
    else 0

/-- The qualifying proximities recorded while far-draining a window. -/
def dropped_pairs (a b : String) : List (String × Nat) → Nat → List Nat
  | [], _ => []
  | (w0, p0) :: rest, pos =>
    if MAX_DISTANCE ≤ index_proximity p0 pos then
      head_proxes w0 p0 rest a b ++ dropped_pairs a b rest pos
    else []

theorem drain_far_window :
    ∀ (win : List (String × Nat)) (m : PMap) (pos : Nat),
    (drain_far win m pos).1 = win.drop (dropped_count win pos)
  | [], _, _ => rfl
  | (w0, p0) :: rest, m, pos => by
    by_cases h : MAX_DISTANCE ≤ index_proximity p0 pos
    · rw [drain_far, if_pos h, drain_far_window rest]
      simp [dropped_count, h]
    · rw [drain_far, if_neg h]
      simp [dropped_count, h]

theorem drain_far_map :
    ∀ (win : List (String × Nat)) (m : PMap) (pos : Nat) (a b : String),
    (drain_far win m pos).2 (a, b)
      = omin (m (a, b)) (minOf (dropped_pairs a b win pos))
  | [], m, pos, a, b => by simp [drain_far, dropped_pairs, minOf, omin_none_right]
  | (w0, p0) :: rest, m, pos, a, b => by
    by_cases h : MAX_DISTANCE ≤ index_proximity p0 pos
    · rw [drain_far, if_pos h, drain_far_map rest, wppp_map, omin_assoc]
      have : dropped_pairs a b ((w0, p0) :: rest) pos
          = head_proxes w0 p0 rest a b ++ dropped_pairs a b rest pos := by
        simp [dropped_pairs, h]
      rw [this, minOf_append]
    · rw [drain_far, if_neg h]
      simp [dropped_pairs, h, minOf, omin_none_right]

theorem dropped_pairs_decomp (a b : String) :
    ∀ (win : List (String × Nat)) (pos : Nat),
    pair_proxes a b win
      = dropped_pairs a b win pos ++ pair_proxes a b (win.drop (dropped_count win pos))
  | [], _ => rfl
  | (w0, p0) :: rest, pos => by
    by_cases h : MAX_DISTANCE ≤ index_proximity p0 pos
    · simp only [dropped_pairs, dropped_count, h, if_true, List.drop_succ_cons,
        List.append_assoc]
      rw [pair_proxes, ← dropped_pairs_decomp a b rest pos]
    · simp [dropped_pairs, dropped_count, h]

theorem dropped_far :
    ∀ (win : List (String × Nat)) (pos : Nat),
    ∀ e ∈ win.take (dropped_count win pos), MAX_DISTANCE ≤ index_proximity e.2 pos
  | [], _ => by simp [dropped_count]
  | (w0, p0) :: rest, pos => by
    by_cases h : MAX_DISTANCE ≤ index_proximity p0 pos
    · simp only [dropped_count, h, if_true, List.take_succ_cons, List.mem_cons]
      rintro e (rfl | he)
      · exact h
      · exact dropped_far rest pos e he
    · simp [dropped_count, h]

/-- The qualifying proximities of pairs whose first occurrence lies in `l₁`
and second in `l₂`. -/
def cross_proxes (a b : String) (l₁ l₂ : List (String × Nat)) : List Nat :=
  l₁.flatMap (fun e => head_proxes e.1 e.2 l₂ a b)

theorem minOf_pair_proxes_append (a b : String) :
    ∀ l₁ l₂ : List (String × Nat),
    minOf (pair_proxes a b (l₁ ++ l₂))
      = omin (minOf (pair_proxes a b l₁))
          (omin (minOf (cross_proxes a b l₁ l₂)) (minOf (pair_proxes a b l₂)))
  | [], l₂ => by simp [pair_proxes, cross_proxes, minOf, omin_none_left]
  | (w, p) :: t, l₂ => by
    have hcross : cross_proxes a b ((w, p) :: t) l₂
        = head_proxes w p l₂ a b ++ cross_proxes a b t l₂ := by
      simp [cross_proxes]
    calc minOf (pair_proxes a b (((w, p) :: t) ++ l₂))
        = omin (minOf (head_proxes w p t a b))
            (omin (minOf (head_proxes w p l₂ a b))
              (minOf (pair_proxes a b (t ++ l₂)))) := by
          rw [List.cons_append, pair_proxes, head_proxes_append, List.append_assoc,
            minOf_append, minOf_append]
      _ = omin (minOf (head_proxes w p t a b))
            (omin (minOf (head_proxes w p l₂ a b))
              (omin (minOf (pair_proxes a b t))
                (omin (minOf (cross_proxes a b t l₂)) (minOf (pair_proxes a b l₂))))) := by
          rw [minOf_pair_proxes_append a b t l₂]
      _ = omin (minOf (pair_proxes a b ((w, p) :: t)))
            (omin (minOf (cross_proxes a b ((w, p) :: t) l₂))
              (minOf (pair_proxes a b l₂))) := by
          rw [hcross, pair_proxes, minOf_append, minOf_append]
          simp only [omin_assoc, omin_left_comm]

theorem index_proximity_far (hp pos q : Nat)
    (hle : hp ≤ pos) (hq : pos ≤ q)
    (hfar : MAX_DISTANCE ≤ index_proximity hp pos) :
    index_proximity hp q = MAX_DISTANCE := by
  have h1 : Nat.dist hp pos = (hp - pos) + (pos - hp) := rfl
  have h2 : Nat.dist hp q = (hp - q) + (q - hp) := rfl
  unfold index_proximity at hfar ⊢
  unfold MAX_DISTANCE at hfar ⊢
  omega

theorem head_proxes_far (hw : String) (hp pos : Nat) (X : List (String × Nat))
    (a b : String) (hle : hp ≤ pos)
    (hfar : MAX_DISTANCE ≤ index_proximity hp pos)
    (hX : ∀ x ∈ X, pos ≤ x.2) :
    head_proxes hw hp X a b = [] := by
  by_cases ha : hw = a
  · simp only [head_proxes, ha, if_true]
    rw [List.filterMap_eq_nil_iff]
    intro x hx
    have h8 : index_proximity hp x.2 = MAX_DISTANCE :=
      index_proximity_far hp pos x.2 hle (hX x hx) hfar
    simp [h8]
  · simp [head_proxes, ha]

theorem cross_proxes_drop (a b : String) (win X : List (String × Nat)) (pos : Nat)
    (hwin : ∀ e ∈ win, e.2 ≤ pos) (hX : ∀ x ∈ X, pos ≤ x.2) :
    cross_proxes a b win X
      = cross_proxes a b (win.drop (dropped_count win pos)) X := by
  conv_lhs => rw [← List.take_append_drop (dropped_count win pos) win]
  unfold cross_proxes
  rw [List.flatMap_append]
  have : (win.take (dropped_count win pos)).flatMap
      (fun e => head_proxes e.1 e.2 X a b) = [] := by
    rw [List.flatMap_eq_nil_iff]
    intro e he
    exact head_proxes_far e.1 e.2 pos X a b
      (hwin e (List.mem_of_mem_take he)) (dropped_far win pos e he) hX
  rw [this, List.nil_append]

/-- The central equivalence: feeding a record tail through the window from
an arbitrary window/map state, then draining, yields the min-merge of the
state with the ideal pair map of the combined occurrence sequence — provided
the combined positions are non-decreasing. -/
theorem feed_spec :
    ∀ (ws : List (Nat × String)) (win : List (String × Nat)) (m : PMap)
      (a b : String),
    ((win ++ ws.map word_pos).map Prod.snd).Pairwise (· ≤ ·) →
    drain_all (feed_words (win, m) ws).1 (feed_words (win, m) ws).2 (a, b)
      = omin (m (a, b)) (ideal_min (win ++ ws.map word_pos) a b)
  | [], win, m, a, b, _ => by
    simp only [feed_words, List.map_nil, List.append_nil]
    exact drain_all_spec win m a b
  | (pos, w) :: rest, win, m, a, b, hsorted => by
    have hwin_le : ∀ e ∈ win, e.2 ≤ pos := by
      intro e he
      have := (List.pairwise_append.mp (by
        simpa using hsorted : (win.map Prod.snd ++
          (pos :: (rest.map word_pos).map Prod.snd)).Pairwise (· ≤ ·))).2.2
      exact this e.2 (List.mem_map_of_mem Prod.snd he) pos (List.mem_cons_self _ _)
    have hX_ge : ∀ x ∈ word_pos (pos, w) :: rest.map word_pos, pos ≤ x.2 := by
      intro x hx
      rcases List.mem_cons.mp hx with rfl | hx'
      · exact le_refl pos
      · have hpw := (List.pairwise_append.mp (by
          simpa using hsorted : (win.map Prod.snd ++
            (pos :: (rest.map word_pos).map Prod.snd)).Pairwise (· ≤ ·))).2.1
        exact (List.pairwise_cons.mp hpw).1 x.2 (List.mem_map_of_mem Prod.snd hx')
    have hsub : (win.drop (dropped_count win pos) ++
          (word_pos (pos, w) :: rest.map word_pos)).Sublist
        (win ++ (word_pos (pos, w) :: rest.map word_pos)) :=
      (List.drop_sublist _ _).append_right _
    have hsorted' : (((win.drop (dropped_count win pos) ++ [(w, pos)]) ++
        rest.map word_pos).map Prod.snd).Pairwise (· ≤ ·) := by
      have : ((win.drop (dropped_count win pos) ++ [(w, pos)]) ++ rest.map word_pos)
          = win.drop (dropped_count win pos) ++ (word_pos (pos, w) :: rest.map word_pos) := by
        simp [word_pos]
      rw [this]
      exact (hsorted.sublist (hsub.map Prod.snd))
    have hstep : feed_words (win, m) ((pos, w) :: rest)
        = feed_words (win.drop (dropped_count win pos) ++ [(w, pos)],
            (drain_far win m pos).2) rest := by
      show feed_words ((drain_far win m pos).1 ++ [(w, pos)],
        (drain_far win m pos).2) rest = _
      rw [drain_far_window]
    rw [hstep, feed_spec rest _ _ a b hsorted', drain_far_map]
    have hassoc : (win.drop (dropped_count win pos) ++ [(w, pos)]) ++ rest.map word_pos
        = win.drop (dropped_count win pos) ++ (word_pos (pos, w) :: rest.map word_pos) := by
      simp [word_pos]
    rw [hassoc]
    set X := word_pos (pos, w) :: rest.map word_pos with hXdef
    have hmain : omin (minOf (dropped_pairs a b win pos))
        (ideal_min (win.drop (dropped_count win pos) ++ X) a b)
        = ideal_min (win ++ X) a b := by
      unfold ideal_min
      rw [minOf_pair_proxes_append, minOf_pair_proxes_append,
        ← cross_proxes_drop a b win X pos hwin_le (by rw [hXdef] at *; exact hX_ge),
        dropped_pairs_decomp a b win pos, minOf_append]
      simp only [omin_assoc]
    have hXmap : ((pos, w) :: rest).map word_pos = X := by
      simp [hXdef, word_pos]
    rw [hXmap, ← hmain, omin_assoc]

/-- One record with non-decreasing positions: the window algorithm extends
the incoming map exactly by the record's ideal pair map. -/
theorem process_record_spec (m : PMap) (record : List (Nat × String))
    (a b : String)
    (h : ((record.map word_pos).map Prod.snd).Pairwise (· ≤ ·)) :
    process_record m record (a, b)
      = omin (m (a, b)) (ideal_min (record.map word_pos) a b) := by
  have := feed_spec record [] m a b (by simpa using h)
  simpa [process_record] using this

theorem foldl_process_record_spec (a b : String) :
    ∀ (records : List (List (Nat × String))) (m : PMap),
    (∀ r ∈ records, ((r.map word_pos).map Prod.snd).Pairwise (· ≤ ·)) →
    (records.foldl process_record m) (a, b)
      = records.foldl (fun acc r => omin acc (ideal_min (r.map word_pos) a b))
          (m (a, b))
  | [], m, _ => rfl
  | r :: rest, m, h => by
    rw [List.foldl_cons, List.foldl_cons,
      foldl_process_record_spec a b rest (process_record m r)
        (fun r' hr' => h r' (List.mem_cons_of_mem r hr')),
      process_record_spec m r a b (h r (List.mem_cons_self r rest))]

theorem pair_proxes_range (a b : String) :
    ∀ (ws : List (String × Nat)) (p : Nat), p ∈ pair_proxes a b ws →
      0 < p ∧ p < MAX_DISTANCE
  | [], p, hp => by simp [pair_proxes] at hp
  | (w, q) :: rest, p, hp => by
    rw [pair_proxes, List.mem_append] at hp
    rcases hp with hp | hp
    · by_cases ha : w = a
      · simp only [head_proxes, ha, if_true, List.mem_filterMap] at hp
        obtain ⟨e, _, he⟩ := hp
        by_cases hc : e.1 = b ∧ 0 < index_proximity q e.2 ∧
            index_proximity q e.2 < MAX_DISTANCE
        · rw [if_pos hc] at he
          cases he
          exact ⟨hc.2.1, hc.2.2⟩
        · rw [if_neg hc] at he
          cases he
      · simp [head_proxes, ha] at hp
    · exact pair_proxes_range a b rest p hp

theorem minOf_mem : ∀ (l : List Nat) (v : Nat), minOf l = some v → v ∈ l
  | [], v, h => by simp [minOf] at h
  | x :: xs, v, h => by
    rw [minOf_cons] at h
    cases hxs : minOf xs with
    | none => rw [hxs] at h; cases h; exact List.mem_cons_self _ _
    | some y =>
      rw [hxs] at h
      have hv : v = min x y := by cases h; rfl
      rcases Nat.le_total x y with hle | hle
      · rw [hv, Nat.min_eq_left hle]; exact List.mem_cons_self _ _
      · rw [hv, Nat.min_eq_right hle]
        exact List.mem_cons_of_mem _ (minOf_mem xs y hxs)

theorem ideal_min_range (ws : List (String × Nat)) (a b : String) (v : Nat)
    (h : ideal_min ws a b = some v) : 0 < v ∧ v < MAX_DISTANCE :=
  pair_proxes_range a b ws v (minOf_mem _ v h)

/-! ### Lemmas: the evaluator -/

theorem inner_evaluate_not_none (i : Index) (f : FilterCondition) :
    inner_evaluate i (.Not f) none
      = (inner_evaluate i f none).map (fun s => i.documents_ids \ s) := by
  rw [inner_evaluate]
  cases h : inner_evaluate i f none <;>
    simp [h, Except.map, bind, Except.bind, pure, Except.pure]

theorem inner_evaluate_not_some (i : Index) (f : FilterCondition) (u : Bitmap)
    (hu : u ≠ ∅) :
    inner_evaluate i (.Not f) (some u)
      = (inner_evaluate i f (some u)).map (fun s => u \ s) := by
  rw [inner_evaluate]
  have : ¬ (some u = some (∅ : Bitmap)) := by simpa using hu
  rw [if_neg this]
  cases h : inner_evaluate i f (some u) <;>
    simp [h, Except.map, bind, Except.bind, pure, Except.pure]

theorem inner_evaluate_empty_universe (i : Index) (c : FilterCondition) :
    inner_evaluate i c (some ∅) = .ok ∅ := by
  rw [inner_evaluate.eq_def]
  simp

/-! ### Concrete fixtures -/

/-- All operator families permitted. -/
def allFeatures : FilterableAttributesFeatures :=
  ⟨true, true, true, true, true, true⟩

/-- A small index: one filterable field `a`, no documents, and a string
facet entry `a = "x" → {1, 2}` (stale facet entries for removed documents
are possible, and the evaluator never consults `documents_ids` for
`Equal`). -/
def iEx : Index where
  fields_ids_map := fun s => if s = "a" then some 0 else none
  field_name := fun n => if n = 0 then some "a" else none
  rules := [⟨"a", allFeatures⟩]
  documents_ids := ∅
  facet_str := [((0, "x"), {1, 2})]
  facet_num := []
  null_faceted := fun _ => ∅
  empty_faceted := fun _ => ∅
  exists_faceted := fun _ => ∅
  geo_filtering_enabled := false
  geo_rtree := none

/-- The condition `a = "x"` over `iEx`. -/
def gEx : FilterCondition := .Condition ⟨"a", none⟩ (.Equal ⟨"x", none⟩)

/-- The index of the non-finite float scenario: documents 0, 1, 2 with
`price` equal to the strings "inf", "2000", "infinity"; only "2000" parses
as a finite float, so only it has a numeric facet entry. -/
def iC6 : Index where
  fields_ids_map := fun s => if s = "price" then some 0 else none
  field_name := fun n => if n = 0 then some "price" else none
  rules := [⟨"price", allFeatures⟩]
  documents_ids := {0, 1, 2}
  facet_str := [((0, "inf"), {0}), ((0, "2000"), {1}), ((0, "infinity"), {2})]
  facet_num := [((0, 2000), {1})]
  null_faceted := fun _ => ∅
  empty_faceted := fun _ => ∅
  exists_faceted := fun _ => {0, 1, 2}
  geo_filtering_enabled := false
  geo_rtree := none

/-- A geo-enabled index with no R-tree (no geo-faceted documents). -/
def iGeoOn : Index where
  fields_ids_map := fun _ => none
  field_name := fun _ => none
  rules := [⟨"_geo", allFeatures⟩]
  documents_ids := {0, 1}
  facet_str := []
  facet_num := []
  null_faceted := fun _ => ∅
  empty_faceted := fun _ => ∅
  exists_faceted := fun _ => ∅
  geo_filtering_enabled := true
  geo_rtree := none

/-- An index with geo filtering disabled and one filterable field. -/
def iGeoOff : Index where
  fields_ids_map := fun s => if s = "title" then some 0 else none
  field_name := fun n => if n = 0 then some "title" else none
  rules := [⟨"title", allFeatures⟩]
  documents_ids := {0, 1}
  facet_str := []
  facet_num := []
  null_faceted := fun _ => ∅
  empty_faceted := fun _ => ∅
  exists_faceted := fun _ => ∅
  geo_filtering_enabled := false
  geo_rtree := none

/-! ### Depth-guard fixtures -/

def nestNot : Nat → FilterCondition → FilterCondition
  | 0, c => c
  | n + 1, c => .Not (nestNot n c)

/-- One atomic equality, `a = x`. -/
def atomEq : FilterCondition := .Condition ⟨"a", none⟩ (.Equal ⟨"x", none⟩)

theorem max_depth_nestNot : ∀ n c, max_depth (nestNot n c) = n + max_depth c
  | 0, _ => (Nat.zero_add _).symm
  | n + 1, c => by
    rw [nestNot, max_depth, max_depth_nestNot n c]
    omega

theorem fids_nestNot : ∀ n c, fids (nestNot n c) = fids c
  | 0, _ => rfl
  | n + 1, c => by rw [nestNot, fids, fids_nestNot n c]

theorem max_depth_list_replicate : ∀ n, max_depth_list (List.replicate n atomEq) = 0
  | 0 => rfl
  | n + 1 => by
    rw [List.replicate_succ, max_depth_list, max_depth_list_replicate n]
    rfl

theorem inner_nestNot_empty_docs (i : Index) (hdocs : i.documents_ids = ∅)
    (c : FilterCondition) (s0 : Bitmap)
    (hbase : inner_evaluate i c none = .ok s0) :
    ∀ n, inner_evaluate i (nestNot (n + 1) c) none = .ok ∅ := by
  intro n
  induction n with
  | zero =>
    rw [nestNot, nestNot, inner_evaluate_not_none, hbase]
    simp [Except.map, hdocs]
  | succ k ih =>
    rw [nestNot, inner_evaluate_not_none, ih]
    simp [Except.map, hdocs]

/-- The deep chain of 2001 `NOT`s evaluates successfully on `iEx`. -/
theorem eval_deep_nestNot_ok : evaluate iEx ⟨nestNot 2001 atomEq⟩ = .ok ∅ := by
  have hfind : (fids (nestNot 2001 atomEq)).find?
      (fun a => !is_filterable_attr iEx.rules a) = none := by
    rw [fids_nestNot]
    decide
  unfold evaluate
  rw [hfind]
  exact inner_nestNot_empty_docs iEx rfl atomEq {1, 2} (by decide) 2000

/-! ### Lemmas: order and sortedness of the pattern set -/

theorem lexLe_head_le {b c : Char} {bs cs : List Char}
    (h : lexLe (b :: bs) (c :: cs) = true) : b.toNat ≤ c.toNat := by
  by_cases h1 : b.toNat < c.toNat
  · omega
  · by_cases h2 : c.toNat < b.toNat
    · simp [lexLe, h1, h2] at h
    · omega

theorem lexLe_cons_of_eq {a b : Char} (h : a.toNat = b.toNat)
    (as bs : List Char) : lexLe (a :: as) (b :: bs) = lexLe as bs := by
  rw [lexLe, if_neg (by omega), if_neg (by omega)]

theorem lexLe_trans : ∀ {as bs cs : List Char},
    lexLe as bs = true → lexLe bs cs = true → lexLe as cs = true
  | [], _, _, _, _ => rfl
  | _ :: _, [], _, h1, _ => by simp [lexLe] at h1
  | _ :: _, _ :: _, [], _, h2 => by simp [lexLe] at h2
  | a :: as, b :: bs, c :: cs, h1, h2 => by
    have hab := lexLe_head_le h1
    have hbc := lexLe_head_le h2
    by_cases h3 : a.toNat < c.toNat
    · simp [lexLe, h3]
    · have hab' : a.toNat = b.toNat := by omega
      have hbc' : b.toNat = c.toNat := by omega
      rw [lexLe_cons_of_eq hab'] at h1
      rw [lexLe_cons_of_eq hbc'] at h2
      rw [lexLe_cons_of_eq (by omega)]
      exact lexLe_trans h1 h2

theorem lexLe_total : ∀ as bs : List Char, lexLe as bs = true ∨ lexLe bs as = true
  | [], _ => .inl rfl
  | _ :: _, [] => .inr rfl
  | a :: as, b :: bs => by
    rcases Nat.lt_trichotomy a.toNat b.toNat with h | h | h
    · left; simp [lexLe, h]
    · rw [lexLe_cons_of_eq h, lexLe_cons_of_eq h.symm]
      exact lexLe_total as bs
    · right; simp [lexLe, h]

theorem strLe_trans {x y z : String} (h1 : strLe x y = true)
    (h2 : strLe y z = true) : strLe x z = true :=
  lexLe_trans h1 h2

theorem mem_sortedInsert (s x : String) :
    ∀ l, x ∈ sortedInsert s l ↔ x = s ∨ x ∈ l
  | [] => by simp [sortedInsert]
  | t :: ts => by
    rw [sortedInsert]
    by_cases h : strLe s t = true
    · rw [if_pos h]
      simp only [List.mem_cons]
    · rw [if_neg h]
      simp only [List.mem_cons, mem_sortedInsert s x ts]
      tauto

theorem pairwise_sortedInsert (s : String) :
    ∀ l : List String, l.Pairwise (fun x y => strLe x y = true) →
      (sortedInsert s l).Pairwise (fun x y => strLe x y = true)
  | [], _ => by simp [sortedInsert]
  | t :: ts, h => by
    rw [sortedInsert]
    by_cases hst : strLe s t
    · rw [if_pos hst]
      refine List.Pairwise.cons ?_ h
      intro x hx
      rcases List.mem_cons.mp hx with rfl | hx'
      · exact hst
      · exact strLe_trans hst ((List.pairwise_cons.mp h).1 x hx')
    · rw [if_neg hst]
      have hts : strLe t s = true := by
        rcases lexLe_total s.data t.data with h1 | h1
        · exact absurd h1 (by simpa [strLe] using hst)
        · exact h1
      refine List.Pairwise.cons ?_
        (pairwise_sortedInsert s ts (List.pairwise_cons.mp h).2)
      intro x hx
      rcases (mem_sortedInsert s x ts).mp hx with rfl | hx'
      · exact hts
      · exact (List.pairwise_cons.mp h).1 x hx'

theorem pairwise_sortStrings (l : List String) :
    (sortStrings l).Pairwise (fun x y => strLe x y = true) := by
  induction l with
  | nil => exact List.Pairwise.nil
  | cons s ts ih => exact pairwise_sortedInsert s _ ih

/-! ### Lemmas: `In` / `Condition` arms of the recursion -/

theorem inner_evaluate_condition (i : Index) (fid : Token) (op : Condition)
    (u : Option Bitmap) :
    inner_evaluate i (.Condition fid op) u = eval_condition_node i fid op u := by
  rw [inner_evaluate]
  by_cases hu : u = some ∅
  · rw [if_pos hu, hu, eval_condition_node, if_pos rfl]
  · rw [if_neg hu]

theorem inner_evaluate_in (i : Index) (fid : Token) (els : List Token)
    (u : Option Bitmap) :
    inner_evaluate i (.In fid els) u = eval_in_node i fid els u := by
  rw [inner_evaluate]
  by_cases hu : u = some ∅
  · rw [if_pos hu, hu, eval_in_node, if_pos rfl]
  · rw [if_neg hu]

theorem eval_condition_node_unknown (i : Index) (fid : Token) (op : Condition)
    (u : Option Bitmap)
    (h : i.fields_ids_map fid.value = none ∨
      matching_features fid.value i.rules = none) :
    eval_condition_node i fid op u = .ok ∅ := by
  rw [eval_condition_node]
  by_cases hu : u = some ∅
  · rw [if_pos hu]
  · rw [if_neg hu]
    rcases h with h | h
    · rw [h]
    · cases hm : i.fields_ids_map fid.value with
      | none => rfl
      | some fid' => rw [h]

theorem eval_in_node_unknown (i : Index) (fid : Token) (els : List Token)
    (u : Option Bitmap)
    (h : i.fields_ids_map fid.value = none ∨
      matching_features fid.value i.rules = none) :
    eval_in_node i fid els u = .ok ∅ := by
  rw [eval_in_node]
  by_cases hu : u = some ∅
  · rw [if_pos hu]
  · rw [if_neg hu]
    rcases h with h | h
    · rw [h]
    · cases hm : i.fields_ids_map fid.value with
      | none => rfl
      | some fid' => rw [h]

/-! ### Claims -/

/-- Claim C1, counterexample. The claim states that the `Not` child is
evaluated with no universe and that the result is `universe − child`. Over
`iEx`, the child `NOT (a = "x")` evaluated with NO universe yields `∅`
(`documents_ids` is empty), so the claimed result for
`NOT NOT (a = "x")` under universe `{5}` would be `{5} \ ∅ = {5}`; the
evaluator, which passes the universe down to the child (filter.rs line 515),
returns `∅` instead. -/
theorem C1_counterexample :
    inner_evaluate iEx (.Not gEx) none = .ok ∅ ∧
    inner_evaluate iEx (.Not (.Not gEx)) (some {5}) ≠
      .ok (({5} : Bitmap) \ ∅) := by
  exact ⟨by decide, by decide⟩

/-- Claim C1, amended: with no universe, `NOT E` returns
`documents_ids − eval(E, none)`; with a universe, the child is evaluated
with the SAME universe and the result is `universe − child`; an empty
universe short-circuits to the empty bitmap. -/
theorem C1_not_semantics (i : Index) (f : FilterCondition) (u : Bitmap)
    (hu : u ≠ ∅) :
    inner_evaluate i (.Not f) none
        = (inner_evaluate i f none).map (fun s => i.documents_ids \ s) ∧
    inner_evaluate i (.Not f) (some u)
        = (inner_evaluate i f (some u)).map (fun s => u \ s) ∧
    inner_evaluate i (.Not f) (some ∅) = .ok ∅ :=
  ⟨inner_evaluate_not_none i f, inner_evaluate_not_some i f u hu,
   inner_evaluate_empty_universe i (.Not f)⟩

theorem C1_not_semantics_witness :
    ({3} : Bitmap) ≠ ∅ ∧
    inner_evaluate iEx (.Not gEx) (some {3})
      = (inner_evaluate iEx gEx (some {3})).map (fun s => ({3} : Bitmap) \ s) :=
  ⟨by decide, (C1_not_semantics iEx gEx {3} (by decide)).2.1⟩

/-- Claim C2, counterexample. The inner evaluation of `a = "x"` under the
non-empty universe `{5}` returns the raw facet bitmap `{1, 2}`, which is not
a subset of the universe: `Condition` results are not intersected with the
universe. -/
theorem C2_counterexample :
    ({5} : Bitmap).Nonempty ∧
    inner_evaluate iEx gEx (some {5}) = .ok {1, 2} ∧
    ¬ (({1, 2} : Bitmap) ⊆ {5}) := by
  exact ⟨by decide, by decide, by decide⟩

/-- Claim C2, amended: an empty universe short-circuits the recursion to the
empty bitmap, and the result of a `Not` node is a subset of its universe;
but the result of the inner evaluation is not in general a subset of the
universe. -/
theorem C2_universe (i : Index) (c f : FilterCondition) (u s : Bitmap)
    (h : inner_evaluate i (.Not f) (some u) = .ok s) :
    inner_evaluate i c (some ∅) = .ok ∅ ∧ s ⊆ u := by
  refine ⟨inner_evaluate_empty_universe i c, ?_⟩
  by_cases hu : u = ∅
  · subst hu
    rw [inner_evaluate_empty_universe] at h
    cases h
    exact Finset.Subset.refl _
  · rw [inner_evaluate_not_some i f u hu] at h
    cases hx : inner_evaluate i f (some u) with
    | error e => rw [hx] at h; simp [Except.map] at h
    | ok x =>
      rw [hx] at h
      simp only [Except.map, Except.ok.injEq] at h
      rw [← h]
      exact Finset.sdiff_subset

theorem C2_universe_witness :
    inner_evaluate iEx gEx (some ∅) = .ok ∅ ∧
    ({5} : Bitmap) \ {1, 2} ⊆ {5} :=
  C2_universe iEx gEx gEx {5} (({5} : Bitmap) \ {1, 2}) (by decide)

/-- Claim C4: an `In` or `Condition` node over a field that is absent from
the fields-ids map, or that no filterable-attribute rule matches, evaluates
to the empty bitmap, not an error (filter.rs lines 525-533 and 544-551). -/
theorem C4_unknown_field (i : Index) (u : Option Bitmap) (fid : Token)
    (op : Condition) (els : List Token)
    (h : i.fields_ids_map fid.value = none ∨
      matching_features fid.value i.rules = none) :
    inner_evaluate i (.In fid els) u = .ok ∅ ∧
    inner_evaluate i (.Condition fid op) u = .ok ∅ := by
  rw [inner_evaluate_in, inner_evaluate_condition]
  exact ⟨eval_in_node_unknown i fid els u h,
    eval_condition_node_unknown i fid op u h⟩

theorem C4_unknown_field_witness :
    (iGeoOff.fields_ids_map "name" = none ∨
      matching_features "name" iGeoOff.rules = none) ∧
    inner_evaluate iGeoOff (.In ⟨"name", none⟩ [⟨"12", none⟩]) none = .ok ∅ ∧
    inner_evaluate iGeoOff (.Condition ⟨"name", none⟩ .Exists) none = .ok ∅ :=
  ⟨.inl (by decide),
   C4_unknown_field iGeoOff none ⟨"name", none⟩ .Exists [⟨"12", none⟩]
     (.inl (by decide))⟩

/-- Claim C10: an `And` node with an empty list of children evaluates to the
empty bitmap, for every index and every universe (filter.rs lines
598-600). -/
theorem C10_empty_and (i : Index) (u : Option Bitmap) :
    inner_evaluate i (.And []) u = .ok ∅ := by
  rw [inner_evaluate.eq_def]
  by_cases h : u = some ∅
  · rw [if_pos h]
  · rw [if_neg h]

/-- `iGeoOff` with facet data and documents: used to show the preflight
error is reached before any facet access. -/
def jC3 : Index :=
  { iGeoOff with
    documents_ids := {0},
    facet_str := [((0, "test"), {0})] }

/-- Claim C3: when some referenced field is not filterable (first such field
in `fids` order), `evaluate` fails with `AttributeNotFilterable` carrying
that attribute and the sorted pattern list, whatever the rest of the index
(in particular the facet stores) contains — no facet lookup happens first
(filter.rs lines 234-257). -/
theorem C3_preflight (i j : Index) (f : Filter) (attr : String)
    (hrules : j.rules = i.rules)
    (hbad : (fids f.condition).find? (fun a => !is_filterable_attr i.rules a)
      = some attr) :
    evaluate j f = .error (.attributeNotFilterable attr
        (filtered_matching_patterns i.rules)) ∧
    (filtered_matching_patterns i.rules).Pairwise
      (fun x y => strLe x y = true) := by
  constructor
  · unfold evaluate
    rw [hrules, hbad]
  · exact pairwise_sortStrings _

theorem C3_preflight_witness :
    evaluate jC3
        ⟨.And [.Condition ⟨"title", none⟩ (.Equal ⟨"test", none⟩),
               .Condition ⟨"name", none⟩ (.Equal ⟨"12", none⟩)]⟩
      = .error (.attributeNotFilterable "name"
          (filtered_matching_patterns iGeoOff.rules)) ∧
    (filtered_matching_patterns iGeoOff.rules).Pairwise
      (fun x y => strLe x y = true) :=
  C3_preflight iGeoOff jC3
    ⟨.And [.Condition ⟨"title", none⟩ (.Equal ⟨"test", none⟩),
           .Condition ⟨"name", none⟩ (.Equal ⟨"12", none⟩)]⟩
    "name" rfl (by decide)

/-- Claim C5, counterexample. A chain of 2001 `NOT`s around one equality
puts a node at depth 2001 > 2000, yet `evaluate` does not fail with
`TooDeep`: the depth guard lives in `from_str` / `from_array`
(construction), not in `evaluate`. -/
theorem C5_counterexample :
    MAX_FILTER_DEPTH < max_depth (nestNot 2001 atomEq) ∧
    evaluate iEx ⟨nestNot 2001 atomEq⟩ ≠ .error .tooDeep := by
  constructor
  · rw [max_depth_nestNot]
    decide
  · rw [eval_deep_nestNot_ok]
    intro h
    cases h

/-- Claim C5, amended: the depth guard runs at construction time —
`from_parsed` (the post-parse step of `from_str` / `from_array`) rejects
with `TooDeep` exactly the trees with a node deeper than 2000; a flat `OR`
of 14,361 atomic equalities (depth 1) is accepted; and a deep tree handed
directly to `evaluate` is evaluated without any depth error. -/
theorem C5_depth_guard :
    (∀ c : FilterCondition,
      from_parsed c = .error .tooDeep ↔ MAX_FILTER_DEPTH < max_depth c) ∧
    from_parsed (.Or (List.replicate 14361 atomEq))
      = .ok ⟨.Or (List.replicate 14361 atomEq)⟩ ∧
    evaluate iEx ⟨nestNot 2001 atomEq⟩ = .ok ∅ := by
  refine ⟨?_, ?_, eval_deep_nestNot_ok⟩
  · intro c
    unfold from_parsed
    by_cases h : MAX_FILTER_DEPTH < max_depth c
    · rw [if_pos h]
      simp [h]
    · rw [if_neg h]
      simp [h]
  · unfold from_parsed
    rw [if_neg]
    rw [max_depth, max_depth_list_replicate]
    decide

/-- Claim C6: a comparison or equality value that does not parse as a
finite 64-bit float contributes nothing on the numeric side — the operator
result does not depend on the numeric facet store at all — and concretely,
over documents whose `price` strings are "inf", "2000", "infinity":
`price = inf` matches doc 0, `price = NaN` matches nothing, and
`price < infinity` matches docs 0 and 1 through the string side alone. -/
theorem C6_nonfinite_values :
    (∀ (i : Index) (field_id : FieldId)
        (feats : FilterableAttributesFeatures) (ridx : Nat) (v : Token)
        (ndb ndb' : List ((FieldId × ℚ) × Bitmap)),
      v.num = none →
      evaluate_operator { i with facet_num := ndb } field_id
          (.LowerThan v) feats ridx
        = evaluate_operator { i with facet_num := ndb' } field_id
            (.LowerThan v) feats ridx ∧
      evaluate_operator { i with facet_num := ndb } field_id
          (.Equal v) feats ridx
        = evaluate_operator { i with facet_num := ndb' } field_id
            (.Equal v) feats ridx) ∧
    evaluate iC6 ⟨.Condition ⟨"price", none⟩ (.Equal ⟨"inf", none⟩)⟩
      = .ok {0} ∧
    evaluate iC6 ⟨.Condition ⟨"price", none⟩ (.Equal ⟨"NaN", none⟩)⟩
      = .ok ∅ ∧
    evaluate iC6 ⟨.Condition ⟨"price", none⟩ (.LowerThan ⟨"infinity", none⟩)⟩
      = .ok {0, 1} := by
  refine ⟨?_, by decide, by decide, by decide⟩
  intro i field_id feats ridx v ndb ndb' hnum
  constructor
  · unfold evaluate_operator
    cases hc : feats.comparison <;>
      simp [hc, range_docids, generate_filter_error, hnum]
  · unfold evaluate_operator
    cases hc : feats.equality <;>
      simp [hc, equal_docids, generate_filter_error, hnum]

theorem C6_nonfinite_values_witness :
    (⟨"infinity", none⟩ : Token).num = none ∧
    evaluate_operator { iC6 with facet_num := [((0, 42), {9})] } 0
        (.LowerThan ⟨"infinity", none⟩) allFeatures 0
      = evaluate_operator { iC6 with facet_num := [] } 0
          (.LowerThan ⟨"infinity", none⟩) allFeatures 0 :=
  ⟨rfl, (C6_nonfinite_values.1 iC6 0 allFeatures 0 ⟨"infinity", none⟩
    [((0, 42), {9})] [] rfl).1⟩

/-- Claim C7: in pass 2 of the word extractor, a `(word, fid)` record is
written to the word-fid-docids output exactly when it is not a no-op
(deletion ≠ addition), and — independently of that test — its deletion side
is routed to the exact stream iff the OLD settings mark it exact, its
addition side iff the NEW settings do (extract_word_docids.rs lines
115-154). -/
theorem C7_pass2_routing (sd : InnerIndexSettingsDiff) :
    ∀ entries : List ((String × FieldId) × DelAddValue),
    (extract_word_docids_pass2 sd entries).word_fid_docids
      = entries.filter (fun e => !is_noop_del_add_obkv e.2) ∧
    (extract_word_docids_pass2 sd entries).exact_word_docids
      = entries.flatMap (fun e =>
          (match e.2.deletion with
           | some b => if routes_to_exact sd.old e.1.1 e.1.2
               then [(e.1.1, DelAdd.deletion, b)] else []
           | none => []) ++
          (match e.2.addition with
           | some b => if routes_to_exact sd.new e.1.1 e.1.2
               then [(e.1.1, DelAdd.addition, b)] else []
           | none => [])) ∧
    (extract_word_docids_pass2 sd entries).word_docids
      = entries.flatMap (fun e =>
          (match e.2.deletion with
           | some b => if routes_to_exact sd.old e.1.1 e.1.2
               then [] else [(e.1.1, DelAdd.deletion, b)]
           | none => []) ++
          (match e.2.addition with
           | some b => if routes_to_exact sd.new e.1.1 e.1.2
               then [] else [(e.1.1, DelAdd.addition, b)]
           | none => []))
  | [] => ⟨rfl, rfl, rfl⟩
  | ((w, fid), v) :: rest => by
    obtain ⟨h1, h2, h3⟩ := C7_pass2_routing sd rest
    refine ⟨?_, ?_, ?_⟩
    · simp only [extract_word_docids_pass2, h1, List.filter_cons]
      by_cases hn : is_noop_del_add_obkv v = true <;> simp [hn]
    · simp [extract_word_docids_pass2, h2]
    · simp [extract_word_docids_pass2, h3]

/-- Claim C8, counterexample. The claim asserts the emitted pair map equals
the document-level minimum-proximity map. For the document with two field
records `[a at 0]` and `[b at 1]` (each with ascending positions, as the
input keying guarantees), the window is drained to empty at each record
boundary, so the extractor emits nothing for `(a, b)` although the claimed
document-level map gives it proximity 1. -/
theorem C8_counterexample :
    (∀ rec ∈ [[((0 : Nat), "a")], [((1 : Nat), "b")]],
      ((rec.map word_pos).map Prod.snd).Pairwise (· ≤ ·)) ∧
    document_side_pairs [[(0, "a")], [(1, "b")]] ("a", "b") = none ∧
    document_ideal [[(0, "a")], [(1, "b")]] "a" "b" = some 1 := by
  exact ⟨by decide, by decide, by decide⟩

/-- Claim C8, amended: per side, the extractor's pair map is the min-merge
over the document's records of the per-record minimum-proximity map: within
each record (whose positions are non-decreasing) every ordered co-occurring
pair gets exactly the minimum over its position pairs of the proximity,
restricted to 1..MAX_DISTANCE−1; proximity 0 is never emitted and every
emitted proximity lies strictly between 0 and MAX_DISTANCE. -/
theorem C8_pair_map :
    (∀ records : List (List (Nat × String)),
      (∀ rec ∈ records, ((rec.map word_pos).map Prod.snd).Pairwise (· ≤ ·)) →
      ∀ a b, document_side_pairs records (a, b)
        = records.foldl
            (fun acc rec => omin acc (ideal_min (rec.map word_pos) a b))
            none) ∧
    (∀ (ws : List (String × Nat)) (a b : String) (v : Nat),
      ideal_min ws a b = some v → 0 < v ∧ v < MAX_DISTANCE) := by
  constructor
  · intro records h a b
    unfold document_side_pairs
    rw [foldl_process_record_spec a b records emptyPMap h]
    rfl
  · exact fun ws a b v h => ideal_min_range ws a b v h

theorem C8_pair_map_witness :
    (∀ rec ∈ [[((0 : Nat), "a"), ((1 : Nat), "b")]],
      ((rec.map word_pos).map Prod.snd).Pairwise (· ≤ ·)) ∧
    document_side_pairs [[(0, "a"), (1, "b")]] ("a", "b")
      = [[((0 : Nat), "a"), ((1 : Nat), "b")]].foldl
          (fun acc rec => omin acc (ideal_min (rec.map word_pos) "a" "b"))
          none :=
  ⟨by decide,
   C8_pair_map.1 [[(0, "a"), (1, "b")]] (by decide) "a" "b"⟩

/-! ### Geo guards -/

/-- A geo predicate references no field token, so preflight passes and
`evaluate` reaches the geo arm directly. -/
theorem evaluate_geo_radius_eq (i : Index) (latT lngT radT : Token) :
    evaluate i ⟨.GeoLowerThan latT lngT radT⟩
      = eval_geo_radius i latT lngT radT := rfl

theorem evaluate_geo_bbox_eq (i : Index) (t1 t2 t3 t4 : Token) :
    evaluate i ⟨.GeoBoundingBox t1 t2 t3 t4⟩
      = eval_geo_bounding_box i t1 t2 t3 t4 none := rfl

/-- Claim C9: with geo filtering enabled, `GeoLowerThan` rejects a latitude
outside [−90, 90] with `BadGeo::Lat` and a longitude outside [−180, 180]
with `BadGeo::Lng`, and returns the empty bitmap when the geo R-tree is
absent; with geo filtering disabled, both geo predicates fail with
`AttributeNotFilterable` naming `_geo` (filter.rs lines 602-639 and
769-779). -/
theorem C9_geo_guards :
    (∀ (i : Index) (latT lngT radT : Token) (lat lng : ℚ),
      i.geo_filtering_enabled = true → latT.num = some lat →
      lngT.num = some lng → (lat < -90 ∨ 90 < lat) →
      evaluate i ⟨.GeoLowerThan latT lngT radT⟩
        = .error (.parseGeoError (.lat lat))) ∧
    (∀ (i : Index) (latT lngT radT : Token) (lat lng : ℚ),
      i.geo_filtering_enabled = true → latT.num = some lat →
      lngT.num = some lng → -90 ≤ lat → lat ≤ 90 →
      (lng < -180 ∨ 180 < lng) →
      evaluate i ⟨.GeoLowerThan latT lngT radT⟩
        = .error (.parseGeoError (.lng lng))) ∧
    (∀ (i : Index) (latT lngT radT : Token) (lat lng r : ℚ),
      i.geo_filtering_enabled = true → latT.num = some lat →
      lngT.num = some lng → -90 ≤ lat → lat ≤ 90 → -180 ≤ lng →
      lng ≤ 180 → radT.num = some r → i.geo_rtree = none →
      evaluate i ⟨.GeoLowerThan latT lngT radT⟩ = .ok ∅) ∧
    (∀ (i : Index) (latT lngT radT : Token),
      i.geo_filtering_enabled = false →
      evaluate i ⟨.GeoLowerThan latT lngT radT⟩
        = .error (.attributeNotFilterable RESERVED_GEO_FIELD_NAME
            (filtered_matching_patterns i.rules))) ∧
    (∀ (i : Index) (t1 t2 t3 t4 : Token),
      i.geo_filtering_enabled = false →
      evaluate i ⟨.GeoBoundingBox t1 t2 t3 t4⟩
        = .error (.attributeNotFilterable RESERVED_GEO_FIELD_NAME
            (filtered_matching_patterns i.rules))) := by
  refine ⟨?_, ?_, ?_, ?_, ?_⟩
  · intro i latT lngT radT lat lng hon hlat hlng hbad
    rw [evaluate_geo_radius_eq, eval_geo_radius, if_pos hon, hlat, hlng]
    have hc1 : (-90 ≤ lat ∧ lat ≤ 90) = False := by
      simp only [eq_iff_iff, iff_false]
      intro hc
      rcases hbad with h | h
      · linarith [hc.1]
      · linarith [hc.2]
    simp [hc1]
  · intro i latT lngT radT lat lng hon hlat hlng h1 h2 hbad
    rw [evaluate_geo_radius_eq, eval_geo_radius, if_pos hon, hlat, hlng]
    have hc1 : (-90 ≤ lat ∧ lat ≤ 90) = True := by simp [h1, h2]
    have hc2 : (-180 ≤ lng ∧ lng ≤ 180) = False := by
      simp only [eq_iff_iff, iff_false]
      intro hc
      rcases hbad with h | h
      · linarith [hc.1]
      · linarith [hc.2]
    simp [hc1, hc2]
  · intro i latT lngT radT lat lng r hon hlat hlng h1 h2 h3 h4 hrad hrt
    rw [evaluate_geo_radius_eq, eval_geo_radius, if_pos hon, hlat, hlng]
    have hc1 : (-90 ≤ lat ∧ lat ≤ 90) = True := by simp [h1, h2]
    have hc2 : (-180 ≤ lng ∧ lng ≤ 180) = True := by simp [h3, h4]
    simp [hc1, hc2, hrad, hrt]
  · intro i latT lngT radT hoff
    rw [evaluate_geo_radius_eq, eval_geo_radius, if_neg (by simp [hoff])]
  · intro i t1 t2 t3 t4 hoff
    rw [evaluate_geo_bbox_eq, eval_geo_bounding_box, if_neg (by simp [hoff])]

theorem C9_geo_guards_witness :
    evaluate iGeoOn ⟨.GeoLowerThan ⟨"-100", some (-100)⟩ ⟨"150", some 150⟩
        ⟨"10", some 10⟩⟩
      = .error (.parseGeoError (.lat (-100))) ∧
    evaluate iGeoOn ⟨.GeoLowerThan ⟨"-10", some (-10)⟩ ⟨"250", some 250⟩
        ⟨"10", some 10⟩⟩
      = .error (.parseGeoError (.lng 250)) ∧
    evaluate iGeoOn ⟨.GeoLowerThan ⟨"45", some 45⟩ ⟨"9", some 9⟩
        ⟨"10", some 10⟩⟩
      = .ok ∅ ∧
    evaluate iGeoOff ⟨.GeoLowerThan ⟨"42", some 42⟩ ⟨"150", some 150⟩
        ⟨"10", some 10⟩⟩
      = .error (.attributeNotFilterable RESERVED_GEO_FIELD_NAME
          (filtered_matching_patterns iGeoOff.rules)) ∧
    evaluate iGeoOff ⟨.GeoBoundingBox ⟨"42", some 42⟩ ⟨"150", some 150⟩
        ⟨"30", some 30⟩ ⟨"10", some 10⟩⟩
      = .error (.attributeNotFilterable RESERVED_GEO_FIELD_NAME
          (filtered_matching_patterns iGeoOff.rules)) :=
  ⟨C9_geo_guards.1 iGeoOn _ _ _ (-100) 150 rfl rfl rfl (.inl (by norm_num)),
   C9_geo_guards.2.1 iGeoOn _ _ _ (-10) 250 rfl rfl rfl (by norm_num)
     (by norm_num) (.inr (by norm_num)),
   C9_geo_guards.2.2.1 iGeoOn _ _ _ 45 9 10 rfl rfl rfl (by norm_num)
     (by norm_num) (by norm_num) (by norm_num) rfl rfl,
   C9_geo_guards.2.2.2.1 iGeoOff _ _ _ rfl,
   C9_geo_guards.2.2.2.2 iGeoOff _ _ _ _ rfl⟩

end Milli
